import Mathlib

/-!
Shallow embedding of the `python-nameko-microservices` repository:
the products storage layer (`products/products/dependencies.py`,
class `StorageWrapper`) and the gateway service
(`gateway/gateway/service.py`, class `GatewayService`), together with
proofs about the order-creation workflow, the batch product lookup,
stock decrement, order enrichment and the list-orders parameter
handling.

Redis stores hash-field values as byte strings; the Python code writes
integers through `str()` (redis-py encoding inside `hmset`/`hincrby`)
and reads them back with `int()` in `StorageWrapper._from_hash`.  Bytes
are modelled as `String` (every stored value is UTF-8 text, and the
`.decode('utf-8')` round trip is the identity), and the decimal
integer encoding is modelled explicitly below.
-/

set_option autoImplicit false

namespace NamekoShop

/-! ## Python decimal integer encoding (str / int round trip)

`pyStrInt` embeds Python's `str(n)` on integers (most-significant digit
first, `-` sign for negatives); `pyParseInt` embeds Python's `int(b)`
on the byte strings that actually occur in the store (a nonempty digit
string, optionally preceded by `-`; the whitespace and `+` forms that
`int()` also tolerates never arise from `str()` output). -/

def digitChar (n : Nat) : Char :=
  match n with
  | 0 => '0' | 1 => '1' | 2 => '2' | 3 => '3' | 4 => '4'
  | 5 => '5' | 6 => '6' | 7 => '7' | 8 => '8' | _ => '9'

def digitVal (c : Char) : Nat := c.toNat - 48

def isDigit (c : Char) : Bool := decide ('0' ≤ c) && decide (c ≤ '9')

/-- Digits of `n`, most significant first; `fuel` bounds the recursion
(any `fuel > n` is enough). -/

def pyDigitsAux : Nat → Nat → List Char
  | 0, _ => []
  | fuel + 1, n =>
    if n < 10 then [digitChar n]
    else pyDigitsAux fuel (n / 10) ++ [digitChar (n % 10)]

/-- Python `str` on a natural number. -/

def pyStrNat (n : Nat) : String := String.mk (pyDigitsAux (n + 1) n)

/-- Python `str` on an integer (redis-py value encoding). -/

def pyStrInt (n : Int) : String :=
  if n < 0 then "-" ++ pyStrNat n.natAbs else pyStrNat n.natAbs

def pyParseNatChars (cs : List Char) : Option Nat :=
  if cs ≠ [] ∧ cs.all isDigit = true then
    some (cs.foldl (fun a c => a * 10 + digitVal c) 0)
  else none

def pyParseIntChars : List Char → Option Int
  | [] => none
  | c :: rest =>
    if c = '-' then (pyParseNatChars rest).map (fun m => -(Int.ofNat m))
    else (pyParseNatChars (c :: rest)).map Int.ofNat

/-- Python `int` on a stored byte string. -/

def pyParseInt (s : String) : Option Int := pyParseIntChars s.data

/-! ## Redis key-value model

A redis hash is a finite map from field names to byte strings, a store
maps keys to hashes.  Both are modelled as association lists looked up
by first match; writes replace in place (or append).  `HGETALL` on an
absent key returns the empty dict, modelled by `hgetallD`. -/

abbrev Hash := List (String × String)

abbrev Store := List (String × Hash)

def hget : Hash → String → Option String
  | [], _ => none
  | (f, v) :: rest, field => if f = field then some v else hget rest field

def hset : Hash → String → String → Hash
  | [], field, v => [(field, v)]
  | (f, w) :: rest, field, v =>
    if f = field then (f, v) :: rest else (f, w) :: hset rest field v

def sget : Store → String → Option Hash
  | [], _ => none
  | (k, h) :: rest, key => if k = key then some h else sget rest key

def sset : Store → String → Hash → Store
  | [], key, h => [(key, h)]
  | (k, g) :: rest, key, h =>
    if k = key then (k, h) :: rest else (k, g) :: sset rest key h

def hgetallD (st : Store) (key : String) : Hash := (sget st key).getD []

/-! ## `StorageWrapper` (products/products/dependencies.py)

Error taxonomy of the products service: `notFound` embeds
`products.exceptions.NotFound`; `decodeError` stands for the untyped
Python exceptions (`KeyError` from a missing hash field in
`_from_hash`, `ValueError` from `int()`, or redis's "hash value is not
an integer" in `HINCRBY`), which never arise on stores produced by
`create`. -/

inductive PErr where
  | notFound (msg : String)
  | decodeError
deriving DecidableEq

structure Product where
  id : String
  title : String
  passenger_capacity : Int
  maximum_speed : Int
  in_stock : Int
deriving DecidableEq

/-- `StorageWrapper._format_key`. -/

def _format_key (product_id : String) : String := "products:" ++ product_id

/-- `StorageWrapper._from_hash`: decode a stored hash into a typed
product; field values are read in source order, text fields UTF-8
decoded (the identity here) and numeric fields through `int()`.
`none` models the `KeyError`/`ValueError` a malformed hash raises. -/

def _from_hash (document : Hash) : Option Product := do
  let i ← hget document "id"
  let t ← hget document "title"
  let pc ← (hget document "passenger_capacity").bind pyParseInt
  let ms ← (hget document "maximum_speed").bind pyParseInt
  let ins ← (hget document "in_stock").bind pyParseInt
  pure { id := i, title := t, passenger_capacity := pc,
         maximum_speed := ms, in_stock := ins }

/-- `StorageWrapper.get`. -/

def get (st : Store) (product_id : String) : Except PErr Product :=
  let product := hgetallD st (_format_key product_id)
  if product.isEmpty then
    .error (.notFound ("Product ID " ++ product_id ++ " does not exist"))
  else
    match _from_hash product with
    | some p => .ok p
    | none => .error .decodeError

/-- redis-py `hmset` value encoding for the product dict handed to
`StorageWrapper.create`: strings stay text, integers go through
`str()`. -/

def productToHash (product : Product) : Hash :=
  [("id", product.id),
   ("title", product.title),
   ("passenger_capacity", pyStrInt product.passenger_capacity),
   ("maximum_speed", pyStrInt product.maximum_speed),
   ("in_stock", pyStrInt product.in_stock)]

/-- `StorageWrapper.create`: upsert the full record at its key. -/

def create (st : Store) (product : Product) : Store :=
  sset st (_format_key product.id) (productToHash product)

/-- The `for result in results` filter-and-decode loop of
`StorageWrapper.find_order_details_by_id` (lines 74-77): empty hashes
(missing keys) are skipped, nonempty ones are decoded and appended. -/

def decodeLoop : List Hash → List Product → Except PErr (List Product)
  | [], products => .ok products
  | result :: rest, products =>
    if result.isEmpty then decodeLoop rest products
    else
      match _from_hash result with
      | some p => decodeLoop rest (products ++ [p])
      | none => .error .decodeError

/-- `StorageWrapper.find_order_details_by_id`: one pipelined `HGETALL`
per requested id, then filter-and-decode, failing with `NotFound` only
when the filtered result is empty. -/

def find_order_details_by_id (st : Store) (orders_id : List String) :
    Except PErr (List Product) :=
  let keys := orders_id.map _format_key
  let results := keys.map (fun key => hgetallD st key)
  match decodeLoop results [] with
  | .error e => .error e
  | .ok products =>
    if products.isEmpty then
      .error (.notFound "No products found for the given IDs.")
    else .ok products

/-- `StorageWrapper.decrement_stock`, i.e. redis `HINCRBY key in_stock
-amount`: a missing key is created with the field set to `-amount`, a
missing field is treated as `0`, a non-integer stored value is a redis
error. -/

def decrement_stock (st : Store) (product_id : String) (amount : Int) :
    Except PErr (Int × Store) :=
  let key := _format_key product_id
  match sget st key with
  | none => .ok (-amount, sset st key [("in_stock", pyStrInt (-amount))])
  | some h =>
    match hget h "in_stock" with
    | none => .ok (-amount, sset st key (hset h "in_stock" (pyStrInt (-amount))))
    | some v =>
      match pyParseInt v with
      | none => .error .decodeError
      | some cur =>
        .ok (cur - amount, sset st key (hset h "in_stock" (pyStrInt (cur - amount))))

/-! ### Derived store predicates used in the theorem statements -/

/-- The requested id has a (nonempty) record in the store. -/

def present (st : Store) (product_id : String) : Bool :=
  !(hgetallD st (_format_key product_id)).isEmpty

/-- Number of request positions whose id has a matching record. -/

def hitCount (st : Store) (ids : List String) : Nat :=
  (ids.filter (fun i => present st i)).length

/-- The decoded record of a requested id, `none` when absent. -/

def lookupDecode (st : Store) (i : String) : Option Product :=
  if (hgetallD st (_format_key i)).isEmpty then none
  else _from_hash (hgetallD st (_format_key i))

/-- Every nonempty stored hash decodes to a product. -/

abbrev GoodStore (st : Store) : Prop :=
  ∀ e ∈ st, e.2 ≠ [] → (_from_hash e.2).isSome = true

/-- Every nonempty stored hash decodes to a product whose id matches
its key (true of every store built by `create`). -/

abbrev WellFormedStore (st : Store) : Prop :=
  ∀ e ∈ st, e.2 ≠ [] → (_from_hash e.2).map (fun p => _format_key p.id) = some e.1

/-- What one position of the pipelined batch contributes: nothing for
an empty (absent) hash, otherwise its decode. -/

def hashHit (r : Hash) : Option Product :=
  if r.isEmpty then none else _from_hash r

instance : Inhabited Product := ⟨⟨"", "", 0, 0, 0⟩⟩

/-- The decoded record of a present id (spec-side helper used only to
state theorems). -/

def getProductD (st : Store) (i : String) : Product :=
  (lookupDecode st i).getD default

/-! ## Gateway (gateway/gateway/service.py)

Error taxonomy seen by the gateway: `rpc e` is an error propagated
from the products service over the RPC boundary; `productNotFound`
embeds `gateway.exceptions.ProductNotFound`; `keyError` and
`typeError` model untyped Python `KeyError`/`TypeError` raised inside
the gateway's own code. -/

inductive GErr where
  | rpc (e : PErr)
  | productNotFound (msg : String)
  | keyError (key : String)
  | typeError
deriving DecidableEq

/-- An order detail as validated by `CreateOrderSchema` (and as
returned inside an order by the orders service). -/

structure OrderDetail where
  product_id : String
  price : String
  quantity : Int
deriving DecidableEq

/-- Modelled from the spec: `products/products/service.py` is not under
`src/` (only `dependencies.py` and its tests are).  Spec §4.2 describes
the Products Service as a "thin RPC-exposed facade over Product Store"
that "adds no business logic beyond pass-through", and §6 lists
`get_products_by_id(ids) -> list`; it is therefore the pass-through to
`StorageWrapper.find_order_details_by_id`. -/

def get_products_by_id (st : Store) (ids : List String) :
    Except PErr (List Product) :=
  find_order_details_by_id st ids

/-- A value of a product dict as seen by gateway code. -/

inductive PVal where
  | s (v : String)
  | i (v : Int)
deriving DecidableEq

/-- Python subscript `product[key]` on a product dict returned by the
products service: its keys are exactly the fields written by
`_from_hash` (the gateway itself reads `product['id']` at service.py
line 111); `none` is a `KeyError`. -/

def productDictGet (p : Product) (key : String) : Option PVal :=
  if key = "id" then some (.s p.id)
  else if key = "title" then some (.s p.title)
  else if key = "passenger_capacity" then some (.i p.passenger_capacity)
  else if key = "maximum_speed" then some (.i p.maximum_speed)
  else if key = "in_stock" then some (.i p.in_stock)
  else none

/-- service.py line 184: `[item['product_id'] for item in
order_data['order_details']]` — a plain list comprehension (despite the
comment above it naming a set); duplicates are preserved. -/

def unique_product_ids (order_details : List OrderDetail) : List String :=
  order_details.map (fun item => item.product_id)

/-- service.py line 188: `[item['product_id'] for item in
order_details]` where `order_details` is the *product* list returned by
the batch get; a product dict has no key `'product_id'`, so the first
iteration raises `KeyError`. -/

def collectMissingIds : List Product → Except GErr (List PVal)
  | [] => .ok []
  | p :: rest =>
    match productDictGet p "product_id" with
    | none => .error (.keyError "product_id")
    | some v => (collectMissingIds rest).map (fun l => v :: l)

/-- service.py lines 190-192: raise `ProductNotFound` at the first
requested id not among the collected ids (Python `in` compares the
string against each element). -/

def missingCheck (ids : List String) (missing_products_id : List PVal) :
    Except GErr Unit :=
  match ids with
  | [] => .ok ()
  | i :: rest =>
    if PVal.s i ∈ missing_products_id then missingCheck rest missing_products_id
    else .error (.productNotFound ("Product Id " ++ i))

/-- `GatewayService._create_order` (service.py lines 182-201).  The
success value is the schema-normalized `order_details` passed to the
Orders Service `create_order` RPC (`CreateOrderSchema().dump` is the
identity on already-validated data); an error means the `create_order`
RPC was never issued. -/

def _create_order (st : Store) (order_details : List OrderDetail) :
    Except GErr (List OrderDetail) :=
  let ids := unique_product_ids order_details
  match get_products_by_id st ids with
  | .error e => .error (.rpc e)
  | .ok ps =>
    let check : Except GErr Unit :=
      if ps.length ≠ ids.length then
        match collectMissingIds ps with
        | .error e => .error e
        | .ok missing => missingCheck ids missing
      else .ok ()
    match check with
    | .error e => .error e
    | .ok _ => .ok order_details

/-- An order detail after read-path enrichment (service.py lines
117-122): the original fields plus `product` and `image`. -/

structure EnrichedDetail where
  detail : OrderDetail
  product : Product
  image : String
deriving DecidableEq

def pmInsert (m : List (String × Product)) (p : Product) :
    List (String × Product) :=
  match m with
  | [] => [(p.id, p)]
  | (k, q) :: rest =>
    if k = p.id then (k, p) :: rest else (k, q) :: pmInsert rest p

def pmGet (m : List (String × Product)) (key : String) : Option Product :=
  match m with
  | [] => none
  | (k, q) :: rest => if k = key then some q else pmGet rest key

/-- service.py line 111: `{product['id']: product for product in
products_data}` — later duplicates overwrite earlier ones. -/

def product_map (products_data : List Product) : List (String × Product) :=
  products_data.foldl pmInsert []

/-- service.py lines 117-122: the enrichment loop; looking up a
`product_id` absent from the map raises `KeyError`. -/

def enrichLoop (pm : List (String × Product)) (image_root : String) :
    List OrderDetail → Except GErr (List EnrichedDetail)
  | [] => .ok []
  | item :: rest =>
    match pmGet pm item.product_id with
    | none => .error (.keyError item.product_id)
    | some p =>
      (enrichLoop pm image_root rest).map
        (fun l => ⟨item, p, image_root ++ "/" ++ item.product_id ++ ".jpg"⟩ :: l)

/-- `GatewayService._get_order` (service.py lines 102-124) applied to
the order fetched from the (black-box) orders service; the order's
other fields pass through untouched, so the model works on its
`order_details` list.  `image_root` is `config['PRODUCT_IMAGE_ROOT']`. -/

def _get_order (st : Store) (order_details : List OrderDetail)
    (image_root : String) : Except GErr (List EnrichedDetail) :=
  let products_id := order_details.map (fun item => item.product_id)
  match get_products_by_id st products_id with
  | .error e => .error (.rpc e)
  | .ok products_data =>
    enrichLoop (product_map products_data) image_root order_details

/-- A query parameter as returned by werkzeug's
`request.args.get(key, default)`: the raw string when the parameter is
present in the query, the given default (an `int` at service.py lines
129-130, where no `type=` coercion is passed) when absent. -/

inductive ArgVal where
  | i (n : Int)
  | s (v : String)
deriving DecidableEq

def argsGet (arg : Option String) (dflt : Int) : ArgVal :=
  match arg with
  | some v => .s v
  | none => .i dflt

/-- Python `max(1, v)`: comparing `int` with `str` raises `TypeError`. -/

def pyMaxIntArg (a : Int) (v : ArgVal) : Except GErr Int :=
  match v with
  | .i n => .ok (max a n)
  | .s _ => .error .typeError

/-- Python `min(10, v)`: comparing `int` with `str` raises `TypeError`. -/

def pyMinIntArg (a : Int) (v : ArgVal) : Except GErr Int :=
  match v with
  | .i n => .ok (min a n)
  | .s _ => .error .typeError

/-- `GatewayService.get_orders` (service.py lines 127-134) up to the
`list_orders` RPC: the success value is the `(page, limit)` pair passed
to `list_orders`. -/

def get_orders (pageArg limitArg : Option String) : Except GErr (Int × Int) :=
  match pyMaxIntArg 1 (argsGet pageArg 1) with
  | .error e => .error e
  | .ok page =>
    match pyMinIntArg 10 (argsGet limitArg 10) with
    | .error e => .error e
    | .ok limit => .ok (page, limit)

/-! ## Concrete fixtures used by witnesses and counterexamples -/

def the_odyssey : Product :=
  { id := "the_odyssey", title := "The Odyssey", passenger_capacity := 101,
    maximum_speed := 5, in_stock := 10 }

def the_enigma : Product :=
  { id := "the_enigma", title := "The Enigma", passenger_capacity := 4,
    maximum_speed := 7, in_stock := 3 }

def lz129 : Product :=
  { id := "LZ129", title := "LZ 129 Hindenburg", passenger_capacity := 50,
    maximum_speed := 135, in_stock := 11 }

/-- Store holding only `the_odyssey`. -/

def demoStore1 : Store := create [] the_odyssey

/-- Store holding `the_odyssey` and `the_enigma`. -/

def demoStore2 : Store := create (create [] the_odyssey) the_enigma

def dOdyssey : OrderDetail :=
  { product_id := "the_odyssey", price := "99.99", quantity := 1 }

def dEnigma : OrderDetail :=
  { product_id := "the_enigma", price := "5.99", quantity := 2 }

def dGhost : OrderDetail :=
  { product_id := "the_ghost", price := "1.00", quantity := 1 }

/-! ## Theorems -/

theorem digitVal_digitChar {n : Nat} (h : n < 10) : digitVal (digitChar n) = n := by
  interval_cases n <;> rfl

theorem isDigit_digitChar {n : Nat} (h : n < 10) : isDigit (digitChar n) = true := by
  interval_cases n <;> rfl

theorem pyDigitsAux_ne_nil {fuel n : Nat} (h : n < fuel) : pyDigitsAux fuel n ≠ [] := by
  cases fuel with
  | zero => omega
  | succ f =>
    by_cases h10 : n < 10 <;> simp [pyDigitsAux, h10]

theorem pyDigitsAux_all_digits {fuel n : Nat} (h : n < fuel) :
    (pyDigitsAux fuel n).all isDigit = true := by
  induction fuel generalizing n with
  | zero => omega
  | succ f ih =>
    by_cases h10 : n < 10
    · simp [pyDigitsAux, h10, isDigit_digitChar h10]
    · have hdiv : n / 10 < n := Nat.div_lt_self (by omega) (by omega)
      have hf : n / 10 < f := by omega
      simp only [pyDigitsAux, if_neg h10, List.all_append, Bool.and_eq_true]
      exact ⟨ih hf, by simp [isDigit_digitChar (Nat.mod_lt n (by omega))]⟩

theorem pyDigitsAux_parse {fuel n : Nat} (h : n < fuel) :
    (pyDigitsAux fuel n).foldl (fun a c => a * 10 + digitVal c) 0 = n := by
  induction fuel generalizing n with
  | zero => omega
  | succ f ih =>
    by_cases h10 : n < 10
    · simp [pyDigitsAux, h10, digitVal_digitChar h10]
    · have hdiv : n / 10 < n := Nat.div_lt_self (by omega) (by omega)
      have hf : n / 10 < f := by omega
      simp only [pyDigitsAux, if_neg h10, List.foldl_append, ih hf,
        List.foldl_cons, List.foldl_nil]
      rw [digitVal_digitChar (Nat.mod_lt n (by omega))]
      omega

theorem pyParseNatChars_pyDigitsAux {fuel n : Nat} (h : n < fuel) :
    pyParseNatChars (pyDigitsAux fuel n) = some n := by
  simp [pyParseNatChars, pyDigitsAux_ne_nil h, pyDigitsAux_all_digits h,
    pyDigitsAux_parse h]

theorem head_pyDigits_ne_dash {n : Nat} {c : Char} {rest : List Char}
    (h : pyDigitsAux (n + 1) n = c :: rest) : ¬ c = '-' := by
  intro hc
  have hall := pyDigitsAux_all_digits (Nat.lt_succ_self n)
  rw [h, hc] at hall
  simp only [List.all_cons, Bool.and_eq_true] at hall
  exact absurd hall.1 (by decide)

/-- `int(str(n)) = n`: the store's decimal byte encoding round-trips. -/

theorem pyParseInt_pyStrInt (n : Int) : pyParseInt (pyStrInt n) = some n := by
  by_cases hneg : n < 0
  · simp only [pyStrInt, if_pos hneg, pyParseInt]
    have hdata : (("-" : String) ++ pyStrNat n.natAbs).data
        = '-' :: pyDigitsAux (n.natAbs + 1) n.natAbs := by
      simp [pyStrNat, String.data_append]
    rw [hdata]
    have h1 : pyParseIntChars ('-' :: pyDigitsAux (n.natAbs + 1) n.natAbs)
        = (pyParseNatChars (pyDigitsAux (n.natAbs + 1) n.natAbs)).map
            (fun m => -(Int.ofNat m)) := by
      simp [pyParseIntChars]
    rw [h1, pyParseNatChars_pyDigitsAux (Nat.lt_succ_self n.natAbs)]
    simp only [Option.map_some', Int.ofNat_eq_natCast]
    congr 1
    omega
  · simp only [pyStrInt, if_neg hneg, pyParseInt, pyStrNat]
    show pyParseIntChars (pyDigitsAux (n.natAbs + 1) n.natAbs) = some n
    cases hds : pyDigitsAux (n.natAbs + 1) n.natAbs with
    | nil => exact absurd hds (pyDigitsAux_ne_nil (Nat.lt_succ_self n.natAbs))
    | cons c rest =>
      have hc : ¬ c = '-' := head_pyDigits_ne_dash hds
      have hparse := pyParseNatChars_pyDigitsAux (Nat.lt_succ_self n.natAbs)
      rw [hds] at hparse
      have h1 : pyParseIntChars (c :: rest)
          = (pyParseNatChars (c :: rest)).map Int.ofNat := by
        simp only [pyParseIntChars]
        rw [if_neg hc]
      rw [h1, hparse]
      simp only [Option.map_some', Int.ofNat_eq_natCast]
      congr 1
      omega

theorem sget_sset_self (st : Store) (key : String) (h : Hash) :
    sget (sset st key h) key = some h := by
  induction st with
  | nil => simp [sset, sget]
  | cons e rest ih =>
    obtain ⟨k, g⟩ := e
    by_cases hk : k = key
    · simp [sset, hk, sget]
    · simp [sset, hk, sget, ih]

theorem sget_mem {st : Store} {key : String} {h : Hash}
    (hs : sget st key = some h) : (key, h) ∈ st := by
  induction st with
  | nil => simp [sget] at hs
  | cons e rest ih =>
    obtain ⟨k, g⟩ := e
    by_cases hk : k = key
    · subst hk
      simp [sget] at hs
      simp [hs]
    · simp [sget, hk] at hs
      exact List.mem_cons_of_mem _ (ih hs)

theorem _from_hash_productToHash (p : Product) :
    _from_hash (productToHash p) = some p := by
  simp [_from_hash, productToHash, hget, pyParseInt_pyStrInt]

theorem lookupDecode_eq_hashHit (st : Store) (i : String) :
    lookupDecode st i = hashHit (hgetallD st (_format_key i)) := rfl

theorem decodeLoop_ok_of_decodable {results : List Hash}
    (hdec : ∀ r ∈ results, r ≠ [] → (_from_hash r).isSome = true) :
    ∀ acc, decodeLoop results acc = .ok (acc ++ results.filterMap hashHit) := by
  induction results with
  | nil => intro acc; simp [decodeLoop]
  | cons r rest ih =>
    intro acc
    have hrest : ∀ x ∈ rest, x ≠ [] → (_from_hash x).isSome = true :=
      fun x hx => hdec x (List.mem_cons_of_mem _ hx)
    by_cases hr : r.isEmpty
    · have : r = [] := List.isEmpty_iff.mp hr
      simp [decodeLoop, hr, hashHit, ih hrest]
    · have hne : r ≠ [] := fun h => hr (by simp [h])
      obtain ⟨p, hp⟩ := Option.isSome_iff_exists.mp (hdec r (List.mem_cons_self _ _) hne)
      simp [decodeLoop, hr, hp, hashHit, ih hrest]

theorem decodeLoop_ok_length {results : List Hash} :
    ∀ {acc l : List Product}, decodeLoop results acc = .ok l →
      l.length = acc.length + (results.filter (fun r => !r.isEmpty)).length := by
  induction results with
  | nil =>
    intro acc l h
    simp [decodeLoop] at h
    simp [h.symm]
  | cons r rest ih =>
    intro acc l h
    by_cases hr : r.isEmpty
    · simp [decodeLoop, hr] at h
      have := ih h
      simp [List.filter, hr, this]
    · simp [decodeLoop, hr] at h
      cases hfh : _from_hash r with
      | none => rw [hfh] at h; exact absurd h (by simp)
      | some p =>
        rw [hfh] at h
        have := ih h
        simp only [List.filter, hr]
        simp at this ⊢
        omega

/-- Characterization of the batch get on stores whose records decode:
hits are decoded in request order, and `NotFound` is raised exactly
when there is no hit. -/

theorem find_eq_of_good {st : Store} (hg : GoodStore st) (ids : List String) :
    find_order_details_by_id st ids =
      (if ids.filterMap (lookupDecode st) = [] then
        .error (.notFound "No products found for the given IDs.")
      else .ok (ids.filterMap (lookupDecode st))) := by
  have hdec : ∀ r ∈ (ids.map _format_key).map (fun key => hgetallD st key),
      r ≠ [] → (_from_hash r).isSome = true := by
    intro r hr hne
    simp only [List.mem_map] at hr
    obtain ⟨key, hkeymem, hkey⟩ := hr
    rcases hs : sget st key with _ | h'
    · exact absurd (by rw [← hkey]; simp [hgetallD, hs]) hne
    · have hrh : r = h' := by rw [← hkey]; simp [hgetallD, hs]
      subst hrh
      exact hg _ (sget_mem hs) hne
  have hloop := decodeLoop_ok_of_decodable hdec []
  have hfm : ((ids.map _format_key).map (fun key => hgetallD st key)).filterMap hashHit
      = ids.filterMap (lookupDecode st) := by
    rw [List.filterMap_map, List.filterMap_map]
    rfl
  unfold find_order_details_by_id
  dsimp only
  rw [hloop, List.nil_append, hfm]
  cases hemp : ids.filterMap (lookupDecode st) with
  | nil => simp
  | cons p rest => simp

/-- Whatever the store contents, a successful batch get returns one
product per request position whose id has a record. -/

theorem find_ok_length {st : Store} {ids : List String} {l : List Product}
    (h : find_order_details_by_id st ids = .ok l) :
    l.length = hitCount st ids := by
  unfold find_order_details_by_id at h
  dsimp only at h
  cases hloop : decodeLoop ((ids.map _format_key).map (fun key => hgetallD st key)) [] with
  | error e => rw [hloop] at h; exact absurd h (by simp)
  | ok products =>
    rw [hloop] at h
    dsimp only at h
    by_cases hemp : products.isEmpty
    · rw [if_pos hemp] at h; exact absurd h (by simp)
    · rw [if_neg hemp] at h
      have hpl : products = l := by
        have := h
        simp at this
        exact this
      have hlen := decodeLoop_ok_length hloop
      have hfl : (((ids.map _format_key).map (fun key => hgetallD st key)).filter
          (fun r => !r.isEmpty)).length = hitCount st ids := by
        rw [List.filter_map, List.filter_map, List.length_map, List.length_map]
        rfl
      rw [← hpl]
      rw [hlen, hfl]
      simp

theorem lookupDecode_isSome {st : Store} (hg : GoodStore st) (i : String) :
    (lookupDecode st i).isSome = present st i := by
  unfold lookupDecode present
  rcases hs : sget st (_format_key i) with _ | h
  · simp [hgetallD, hs]
  · by_cases hemp : h.isEmpty
    · simp [hgetallD, hs, hemp]
    · have hne : h ≠ [] := fun hh => hemp (by simp [hh])
      simp [hgetallD, hs, hemp, hg _ (sget_mem hs) hne]

theorem length_filterMap_lookupDecode {st : Store} (hg : GoodStore st)
    (ids : List String) :
    (ids.filterMap (lookupDecode st)).length = hitCount st ids := by
  induction ids with
  | nil => rfl
  | cons i rest ih =>
    rcases hld : lookupDecode st i with _ | p
    · have hps : present st i = false := by
        rw [← lookupDecode_isSome hg, hld]; rfl
      simp only [hitCount, List.filter_cons, hps, List.filterMap_cons, hld]
      simpa [hitCount] using ih
    · have hps : present st i = true := by
        rw [← lookupDecode_isSome hg, hld]; rfl
      simp only [hitCount, List.filter_cons, hps, List.filterMap_cons, hld]
      simpa [hitCount] using ih

theorem filterMap_eq_map_of_present {st : Store} (hg : GoodStore st)
    {ids : List String} (hall : ∀ i ∈ ids, present st i = true) :
    ids.filterMap (lookupDecode st) = ids.map (getProductD st) := by
  induction ids with
  | nil => rfl
  | cons i rest ih =>
    have hps := hall i (List.mem_cons_self _ _)
    have hsome : (lookupDecode st i).isSome = true := by
      rw [lookupDecode_isSome hg, hps]
    obtain ⟨p, hp⟩ := Option.isSome_iff_exists.mp hsome
    simp [List.filterMap_cons, hp, getProductD,
      ih (fun x hx => hall x (List.mem_cons_of_mem _ hx))]

/-! ## Lemmas about the gateway helpers -/

theorem pmGet_pmInsert (m : List (String × Product)) (p : Product) (key : String) :
    pmGet (pmInsert m p) key = if p.id = key then some p else pmGet m key := by
  induction m with
  | nil => simp [pmInsert, pmGet]
  | cons e rest ih =>
    obtain ⟨k, q⟩ := e
    by_cases h1 : k = p.id
    · by_cases h2 : k = key
      · have hp : p.id = key := by rw [← h1, h2]
        simp [pmInsert, pmGet, h1, h2, hp]
      · have hp : ¬p.id = key := by rw [← h1]; exact h2
        simp [pmInsert, pmGet, h1, h2, hp]
    · by_cases h2 : k = key
      · have hp : ¬p.id = key := fun hh => h1 (by rw [h2, ← hh])
        have hk : ¬key = p.id := by rw [← h2]; exact h1
        simp [pmInsert, pmGet, h1, h2, hp, hk]
      · simp [pmInsert, pmGet, h1, h2, ih]

theorem pmGet_foldl_of_absent {ps : List Product} {key : String}
    (h : ∀ p ∈ ps, p.id ≠ key) :
    ∀ m, pmGet (ps.foldl pmInsert m) key = pmGet m key := by
  induction ps with
  | nil => intro m; rfl
  | cons p rest ih =>
    intro m
    rw [List.foldl_cons, ih (fun q hq => h q (List.mem_cons_of_mem _ hq)),
      pmGet_pmInsert, if_neg (h p (List.mem_cons_self _ _))]

theorem pmGet_foldl_isSome {key : String} :
    ∀ {ps : List Product}, (∃ p ∈ ps, p.id = key) →
      ∀ m, (pmGet (ps.foldl pmInsert m) key).isSome = true := by
  intro ps
  induction ps with
  | nil => intro h; simp at h
  | cons p rest ih =>
    intro h m
    by_cases hex : ∃ q ∈ rest, q.id = key
    · rw [List.foldl_cons]; exact ih hex _
    · have hp : p.id = key := by
        rcases h with ⟨q, hq, hqid⟩
        rcases List.mem_cons.mp hq with rfl | hq'
        · exact hqid
        · exact absurd ⟨q, hq', hqid⟩ hex
      have habs : ∀ q ∈ rest, q.id ≠ key := fun q hq hh => hex ⟨q, hq, hh⟩
      rw [List.foldl_cons, pmGet_foldl_of_absent habs, pmGet_pmInsert, if_pos hp]
      rfl

theorem pmGet_foldl_eq {key : String} {q : Product} :
    ∀ {ps : List Product}, q ∈ ps → q.id = key →
      (∀ p ∈ ps, p.id = key → p = q) →
      ∀ m, pmGet (ps.foldl pmInsert m) key = some q := by
  intro ps
  induction ps with
  | nil => intro hq; simp at hq
  | cons p rest ih =>
    intro hq hqid huniq m
    by_cases hex : ∃ r ∈ rest, r.id = key
    · rcases hex with ⟨r, hr, hrid⟩
      have hrq : r = q := huniq r (List.mem_cons_of_mem _ hr) hrid
      subst hrq
      rw [List.foldl_cons]
      exact ih hr hqid (fun x hx hxid => huniq x (List.mem_cons_of_mem _ hx) hxid) _
    · have hpq : p = q := by
        rcases List.mem_cons.mp hq with rfl | hq'
        · rfl
        · exact absurd ⟨q, hq', hqid⟩ hex
      subst hpq
      have habs : ∀ r ∈ rest, r.id ≠ key := fun r hr hh => hex ⟨r, hr, hh⟩
      rw [List.foldl_cons, pmGet_foldl_of_absent habs, pmGet_pmInsert, if_pos hqid]

theorem enrichLoop_total {pm : List (String × Product)} {root : String} :
    ∀ {details : List OrderDetail},
      (∀ d ∈ details, (pmGet pm d.product_id).isSome = true) →
      ∃ l, enrichLoop pm root details = .ok l := by
  intro details
  induction details with
  | nil => intro _; exact ⟨[], rfl⟩
  | cons d rest ih =>
    intro h
    obtain ⟨p, hp⟩ := Option.isSome_iff_exists.mp (h d (List.mem_cons_self _ _))
    obtain ⟨l, hl⟩ := ih (fun x hx => h x (List.mem_cons_of_mem _ hx))
    refine ⟨⟨d, p, root ++ "/" ++ d.product_id ++ ".jpg"⟩ :: l, ?_⟩
    simp [enrichLoop, hp, hl, Except.map]

theorem enrichLoop_map {pm : List (String × Product)} {root : String}
    {g : String → Product} :
    ∀ {details : List OrderDetail},
      (∀ d ∈ details, pmGet pm d.product_id = some (g d.product_id)) →
      enrichLoop pm root details =
        .ok (details.map (fun d =>
          ⟨d, g d.product_id, root ++ "/" ++ d.product_id ++ ".jpg"⟩)) := by
  intro details
  induction details with
  | nil => intro _; rfl
  | cons d rest ih =>
    intro h
    have hd := h d (List.mem_cons_self _ _)
    have hrest := ih (fun x hx => h x (List.mem_cons_of_mem _ hx))
    simp [enrichLoop, hd, hrest, Except.map]

theorem filter_length_lt {α : Type} {p : α → Bool} :
    ∀ {l : List α} {a : α}, a ∈ l → p a = false →
      (l.filter p).length < l.length := by
  intro l
  induction l with
  | nil => intro a ha; simp at ha
  | cons x rest ih =>
    intro a ha hpa
    have hsub := (List.filter_sublist (p := p) rest).length_le
    rcases List.mem_cons.mp ha with rfl | ha'
    · rw [List.filter_cons, if_neg (by simp [hpa])]
      simp only [List.length_cons]
      omega
    · by_cases hx : p x = true
      · rw [List.filter_cons, if_pos hx]
        have := ih ha' hpa
        simp only [List.length_cons]
        omega
      · rw [List.filter_cons, if_neg hx]
        have := ih ha' hpa
        simp only [List.length_cons]
        omega

theorem find_ok_ne_nil {st : Store} {ids : List String} {l : List Product}
    (h : find_order_details_by_id st ids = .ok l) : l ≠ [] := by
  unfold find_order_details_by_id at h
  dsimp only at h
  cases hloop : decodeLoop ((ids.map _format_key).map (fun key => hgetallD st key)) [] with
  | error e => rw [hloop] at h; exact absurd h (by simp)
  | ok products =>
    rw [hloop] at h
    dsimp only at h
    by_cases hemp : products.isEmpty
    · rw [if_pos hemp] at h; exact absurd h (by simp)
    · rw [if_neg hemp] at h
      have hpl : products = l := by simpa using h
      subst hpl
      exact fun hh => hemp (by simp [hh])

theorem _format_key_inj {a b : String} (h : _format_key a = _format_key b) :
    a = b := by
  unfold _format_key at h
  have hdata : ("products:" ++ a).data = ("products:" ++ b).data := by rw [h]
  rw [String.data_append, String.data_append] at hdata
  exact String.ext (List.append_cancel_left hdata)

theorem GoodStore_of_wellFormed {st : Store} (hw : WellFormedStore st) :
    GoodStore st := by
  intro e he hne
  have hwf := hw e he hne
  cases hfh : _from_hash e.2 with
  | none => rw [hfh] at hwf; simp at hwf
  | some p => simp [hfh]

/-- On a well-formed store, the decoded record of a present id carries
that id. -/

theorem getProductD_id {st : Store} (hw : WellFormedStore st) {i : String}
    (hp : present st i = true) : (getProductD st i).id = i := by
  unfold present hgetallD at hp
  rcases hs : sget st (_format_key i) with _ | h
  · rw [hs] at hp; simp at hp
  · rw [hs] at hp
    simp only [Option.getD_some] at hp
    have hne : h ≠ [] := by
      intro hh; rw [hh] at hp; simp at hp
    have hwf := hw _ (sget_mem hs) hne
    cases hfh : _from_hash h with
    | none => rw [hfh] at hwf; simp at hwf
    | some p =>
      rw [hfh] at hwf
      simp only [Option.map_some', Option.some.injEq] at hwf
      have hid : p.id = i := _format_key_inj hwf
      unfold getProductD lookupDecode hgetallD
      rw [hs]
      simp only [Option.getD_some]
      have hemp : h.isEmpty = false := by
        cases h with
        | nil => exact absurd rfl hne
        | cons x xs => rfl
      rw [hemp]
      simp [hfh, hid]

/-- On a good store, a present id's lookup decodes to `getProductD`. -/

theorem lookupDecode_eq_getProductD {st : Store} (hg : GoodStore st)
    {i : String} (hp : present st i = true) :
    lookupDecode st i = some (getProductD st i) := by
  have hsome : (lookupDecode st i).isSome = true := by
    rw [lookupDecode_isSome hg, hp]
  obtain ⟨p, hpp⟩ := Option.isSome_iff_exists.mp hsome
  rw [hpp]
  unfold getProductD
  rw [hpp]
  rfl

/-! ## The claims -/

/-- C7: for every well-typed product record, `create(product)` followed
by `get(product.id)` returns a value structurally equal to the product —
the round trip through the store's byte encoding (`str`) and decoding
(`int` / UTF-8) is the identity. -/

theorem claim_C7_create_get_roundtrip (st : Store) (p : Product) :
    get (create st p) p.id = .ok p := by
  have hs : hgetallD (sset st (_format_key p.id) (productToHash p))
      (_format_key p.id) = productToHash p := by
    unfold hgetallD
    rw [sget_sset_self]
    rfl
  unfold get create
  dsimp only
  rw [hs, if_neg (by simp [productToHash]), _from_hash_productToHash]

/-- C4: for a batch get of `n` ids of which `k` positions have a
matching record (on a store whose records decode), the call fails with
`NotFound` exactly when `k = 0` and otherwise returns exactly `k`
decoded products. -/

theorem claim_C4_batch_get_count (st : Store) (ids : List String)
    (hg : GoodStore st) :
    (hitCount st ids = 0 →
      find_order_details_by_id st ids
        = .error (.notFound "No products found for the given IDs.")) ∧
    (0 < hitCount st ids →
      ∃ l, find_order_details_by_id st ids = .ok l
        ∧ l.length = hitCount st ids) := by
  have hchar := find_eq_of_good hg ids
  have hlen := length_filterMap_lookupDecode hg ids
  constructor
  · intro h0
    have hnil : ids.filterMap (lookupDecode st) = [] :=
      List.length_eq_zero.mp (by rw [hlen, h0])
    rw [hchar, if_pos hnil]
  · intro hpos
    have hne : ids.filterMap (lookupDecode st) ≠ [] := by
      intro hh
      rw [hh] at hlen
      simp at hlen
      omega
    refine ⟨ids.filterMap (lookupDecode st), ?_, hlen⟩
    rw [hchar, if_neg hne]

theorem claim_C4_witness :
    ∃ l, find_order_details_by_id demoStore1 ["the_odyssey", "ghost"] = .ok l
      ∧ l.length = hitCount demoStore1 ["the_odyssey", "ghost"] :=
  (claim_C4_batch_get_count demoStore1 ["the_odyssey", "ghost"]
    (by decide)).2 (by decide)

/-- C10: the batch get is order- and multiplicity-preserving on hits —
whenever it returns at all, the returned list is exactly the decoded
records of the request positions whose id has a matching record, in
request order (a duplicated existing id contributes once per
occurrence, since `orders_id.map` issues one `HGETALL` per position). -/

theorem claim_C10_batch_get_order_multiplicity (st : Store)
    (ids : List String) (hg : GoodStore st) (hpos : 0 < hitCount st ids) :
    find_order_details_by_id st ids = .ok (ids.filterMap (lookupDecode st)) := by
  have hlen := length_filterMap_lookupDecode hg ids
  have hne : ids.filterMap (lookupDecode st) ≠ [] := by
    intro hh
    rw [hh] at hlen
    simp at hlen
    omega
  rw [find_eq_of_good hg, if_neg hne]

theorem claim_C10_witness :
    find_order_details_by_id demoStore1
        ["the_odyssey", "ghost", "the_odyssey"]
      = .ok (["the_odyssey", "ghost", "the_odyssey"].filterMap
          (lookupDecode demoStore1)) :=
  claim_C10_batch_get_order_multiplicity demoStore1
    ["the_odyssey", "ghost", "the_odyssey"] (by decide) (by decide)

/-- C2: whenever some referenced product id has no record in the store,
`_create_order` raises an error strictly before the delegation step, so
the `create_order` RPC to the Orders Service is never issued (a success
value of `_create_order` is by construction the payload of that RPC). -/

theorem claim_C2_no_create_order_on_missing (st : Store)
    (details : List OrderDetail)
    (h : ∃ d ∈ details, present st d.product_id = false) :
    ¬ ∃ l, _create_order st details = .ok l := by
  rintro ⟨l, hok⟩
  unfold _create_order at hok
  dsimp only at hok
  cases hfind : get_products_by_id st (unique_product_ids details) with
  | error e => rw [hfind] at hok; simp at hok
  | ok ps =>
    rw [hfind] at hok
    dsimp only at hok
    have hfind' : find_order_details_by_id st (unique_product_ids details)
        = .ok ps := hfind
    have hlen : ps.length = hitCount st (unique_product_ids details) :=
      find_ok_length hfind'
    have hlt : hitCount st (unique_product_ids details)
        < (unique_product_ids details).length := by
      obtain ⟨d, hd, hpres⟩ := h
      exact filter_length_lt (List.mem_map_of_mem _ hd) hpres
    have hne : ps.length ≠ (unique_product_ids details).length := by omega
    rw [if_pos hne] at hok
    obtain ⟨q, rest, rfl⟩ : ∃ q rest, ps = q :: rest := by
      cases hps : ps with
      | nil => exact absurd hps (find_ok_ne_nil hfind')
      | cons q rest => exact ⟨q, rest, rfl⟩
    have hcol : collectMissingIds (q :: rest)
        = .error (.keyError "product_id") := rfl
    rw [hcol] at hok
    simp at hok

theorem claim_C2_witness :
    ¬ ∃ l, _create_order demoStore1 [dOdyssey, dGhost] = .ok l :=
  claim_C2_no_create_order_on_missing demoStore1 [dOdyssey, dGhost]
    ⟨dGhost, by decide, by decide⟩

/-- C1 (code bug): with `the_odyssey` stored and `the_ghost` absent, the
order-creation workflow does *not* fail with `ProductNotFound` naming
the first missing id; line 188's `[item['product_id'] for item in
order_details]` iterates over the returned *product* dicts, which are
keyed `'id'` (the gateway itself reads `product['id']` at line 111), so
an untyped `KeyError('product_id')` is raised instead and the
`ProductNotFound` branch is unreachable. -/

theorem claim_C1_keyerror_not_product_not_found :
    _create_order demoStore1 [dOdyssey, dGhost]
      = .error (GErr.keyError "product_id") := rfl

/-- C3 (code bug): despite the comment at line 183 and the variable
name, line 184 builds a plain list of the referenced ids — a duplicated
id is sent to the batch get once per occurrence, not once per unique
id, and the length check compares position counts, not unique counts
(`[dOdyssey, dOdyssey]` queries `the_odyssey` twice: 2 requested = 2
returned, so creation succeeds even though there is 1 unique id). -/

theorem claim_C3_duplicates_queried_per_occurrence :
    unique_product_ids [dOdyssey, dOdyssey] = ["the_odyssey", "the_odyssey"]
    ∧ _create_order demoStore1 [dOdyssey, dOdyssey] = .ok [dOdyssey, dOdyssey] :=
  ⟨rfl, rfl⟩

/-- C5 (code bug): `decrement_stock(id, 4)` twice from `in_stock = 11`
does yield 7 then 3, but decrementing an id with no record does not
fail with `NotFound`: redis `HINCRBY` fabricates a record holding only
`in_stock = -4` and returns `-4`. -/

theorem claim_C5_decrement_stock_eval :
    decrement_stock (create [] lz129) "LZ129" 4
      = .ok (7, create [] { lz129 with in_stock := 7 })
    ∧ decrement_stock (create [] { lz129 with in_stock := 7 }) "LZ129" 4
      = .ok (3, create [] { lz129 with in_stock := 3 })
    ∧ decrement_stock [] "ghost" 4
      = .ok (-4, [("products:ghost", [("in_stock", "-4")])]) :=
  ⟨rfl, rfl, rfl⟩

/-- C6 (code bug): `request.args.get('page', default=1)` at lines
129-130 passes no `type=int`, so a present query parameter arrives as a
string and Python's `max(1, '0')` raises `TypeError` before
`list_orders` is called; only when both parameters are absent do the
integer defaults flow through, giving `list_orders(1, 10)`. -/

theorem claim_C6_get_orders_args :
    get_orders (some "0") (some "50") = .error GErr.typeError
    ∧ get_orders none none = .ok (1, 10)
    ∧ get_orders none (some "50") = .error GErr.typeError :=
  ⟨rfl, rfl, rfl⟩

/-- C8: retrieving an order all of whose referenced products exist (on
a well-formed store) enriches every order detail with the decoded
product and an image URL `<image_root>/<product_id>.jpg`. -/

theorem claim_C8_order_enrichment (st : Store) (details : List OrderDetail)
    (root : String) (hw : WellFormedStore st) (hne : details ≠ [])
    (hall : ∀ d ∈ details, present st d.product_id = true) :
    _get_order st details root =
      .ok (details.map (fun d =>
        ⟨d, getProductD st d.product_id,
          root ++ "/" ++ d.product_id ++ ".jpg"⟩)) := by
  have hg := GoodStore_of_wellFormed hw
  have hallids : ∀ i ∈ details.map (fun item => item.product_id),
      present st i = true := by
    intro i hi
    obtain ⟨d, hd, rfl⟩ := List.mem_map.mp hi
    exact hall d hd
  have hfm : (details.map (fun item => item.product_id)).filterMap (lookupDecode st)
      = (details.map (fun item => item.product_id)).map (getProductD st) :=
    filterMap_eq_map_of_present hg hallids
  have hmapne : (details.map (fun item => item.product_id)).filterMap
      (lookupDecode st) ≠ [] := by
    rw [hfm]
    intro hh
    rw [List.map_eq_nil_iff, List.map_eq_nil_iff] at hh
    exact hne hh
  have hfind : find_order_details_by_id st (details.map (fun item => item.product_id))
      = .ok ((details.map (fun item => item.product_id)).map (getProductD st)) := by
    rw [find_eq_of_good hg, if_neg hmapne, hfm]
  unfold _get_order
  dsimp only
  rw [show get_products_by_id st (details.map (fun item => item.product_id))
      = .ok ((details.map (fun item => item.product_id)).map (getProductD st))
    from hfind]
  apply enrichLoop_map
  intro d hd
  have hip : present st d.product_id = true := hall d hd
  have hmem : getProductD st d.product_id
      ∈ (details.map (fun item => item.product_id)).map (getProductD st) :=
    List.mem_map_of_mem _ (List.mem_map_of_mem _ hd)
  apply pmGet_foldl_eq hmem (getProductD_id hw hip)
  intro p hp hpid
  obtain ⟨j, hj, rfl⟩ := List.mem_map.mp hp
  have hjp : present st j = true := hallids j hj
  have : j = d.product_id := by rw [← getProductD_id hw hjp, hpid]
  rw [this]

theorem claim_C8_witness :
    _get_order demoStore2 [dOdyssey, dEnigma, dOdyssey] "http://img"
      = .ok ([dOdyssey, dEnigma, dOdyssey].map (fun d =>
          ⟨d, getProductD demoStore2 d.product_id,
            "http://img" ++ "/" ++ d.product_id ++ ".jpg"⟩)) :=
  claim_C8_order_enrichment demoStore2 [dOdyssey, dEnigma, dOdyssey]
    "http://img" (by decide) (by decide) (by decide)

/-- C9: the enrichment lookup `product_map[product_id]` is partial —
whenever every product id referenced by the fetched order is among the
ids of the batch-get result, the lookup (and hence `_get_order`)
succeeds; but for an order referencing a product absent from the
batch-get result the loop raises an untyped `KeyError` carrying the
missing id, not `OrderNotFound` or `ProductNotFound`. -/

theorem claim_C9_enrichment_lookup_keyerror :
    (∀ (st : Store) (details : List OrderDetail) (root : String)
        (ps : List Product),
      get_products_by_id st (details.map (fun item => item.product_id))
          = .ok ps →
      (∀ d ∈ details, d.product_id ∈ ps.map (fun p => p.id)) →
      ∃ l, _get_order st details root = .ok l) ∧
    _get_order demoStore1 [dOdyssey, dGhost] "http://img"
      = .error (GErr.keyError "the_ghost") := by
  constructor
  · intro st details root ps hfind hall
    unfold _get_order
    dsimp only
    rw [hfind]
    apply enrichLoop_total
    intro d hd
    obtain ⟨p, hp, hpid⟩ := List.mem_map.mp (hall d hd)
    exact pmGet_foldl_isSome ⟨p, hp, hpid⟩ []
  · rfl

theorem claim_C9_witness :
    ∃ l, _get_order demoStore2 [dOdyssey, dEnigma] "http://img" = .ok l :=
  claim_C9_enrichment_lookup_keyerror.1 demoStore2 [dOdyssey, dEnigma]
    "http://img" [the_odyssey, the_enigma] rfl (by decide)

end NamekoShop
